import Mathlib


/-!
Verification of the alfen_modbus register model.

This file gives a shallow embedding of the core register-store, codec, mirror-loop
and clamp logic of the alfen_modbus repository:

* `simulator/simulator.py`: the encoding helpers (`to_registers`, `encode_string`,
  `encode_float`, `encode_uint16`, `encode_int16`, `encode_uint32`, `encode_uint64`),
  the `reg` address helper, and the body of the `update_simulation` mirror loop.
* `simulator/smoke_test_ha.py`: the decode helpers replicating the Home Assistant
  integration (`decode_string`, `decode_uint16`, `decode_int16`, `decode_uint32`,
  `decode_uint64`).
* `simulator/test_simulator.py`: the `decode_float` helper.
* `custom_components/alfen_modbus/number.py`: `AlfenNumber.update_value` and
  `AlfenNumber.async_set_native_value` (the clamp-then-write path).

Registers are 16-bit words modelled as `Nat`; byte strings are `List Nat`;
Python floats in the clamp logic are modelled as exact rationals (the clamp
only compares and stores values, so no rounding is involved); the FLOAT32 codec
is modelled by an exact IEEE-754 binary32 round-to-nearest-even implementation
over `ℚ`.  Fallible Python operations (struct.pack/unpack range errors,
IndexError on short lists, OverflowError in int.to_bytes) are modelled with
`Option`/`Except`.
-/

/-!  Register store and device-context dispatcher  -/

/-- Block-level read of a `ModbusSequentialDataBlock` with start address 0:
the Python list slice `values[address : address + count]` (silently short when
the block ends before `address + count`). -/
def blockGet (block : List Nat) (address count : Nat) : List Nat :=
  (block.drop address).take count

/-- Block-level write of a `ModbusSequentialDataBlock` with start address 0:
the Python slice assignment `values[address : address + len(vs)] = vs`. -/
def blockSet (block : List Nat) (address : Nat) (vs : List Nat) : List Nat :=
  block.take address ++ vs ++ block.drop (address + vs.length)

/-- Convert a client-visible Modbus register address to a block index
(`reg` in `simulator/simulator.py`). -/
def reg (register : Nat) : Nat :=
  register + 1

/-- Modelled from the spec and the source comments: the pymodbus
`ModbusDeviceContext.getValues` dispatcher adds a fixed +1 to the client-visible
address before delegating to the block (the function-code argument, always 3
for holding registers, is omitted). -/
def getValues (block : List Nat) (address count : Nat) : List Nat :=
  blockGet block (address + 1) count

/-- Modelled from the spec and the source comments: the pymodbus
`ModbusDeviceContext.setValues` dispatcher adds the same fixed +1 to the
client-visible address before delegating to the block. -/
def setValues (block : List Nat) (address : Nat) (vs : List Nat) : List Nat :=
  blockSet block (address + 1) vs

/-- Body of one socket iteration of `update_simulation` in
`simulator/simulator.py`: read the two registers at client-visible address 1210
(Modbus Slave Max Current) and, if the read returned a two-element list, write
them to client-visible address 1206 (Actual Applied Max Current). -/
def update_simulation_step (block : List Nat) : List Nat :=
  let values := getValues block 1210 2
  if values.length = 2 then setValues block 1206 values else block

/-- One tick of the `update_simulation` loop over the whole server context:
the mirror step is applied to the socket units 1 and 2 and to no other unit
(the product store at unit 200 is untouched). -/
def serverTick (ctx : Nat → List Nat) : Nat → List Nat :=
  fun unit => if unit = 1 ∨ unit = 2 then update_simulation_step (ctx unit) else ctx unit

/-!  Byte-level encoding helpers (simulator/simulator.py)  -/

/-- Converts a list of bytes to a list of 16-bit registers, big endian, padding
an odd-length input with a trailing zero byte (`to_registers` in
`simulator/simulator.py`). -/
def to_registers : List Nat → List Nat
  | [] => []
  | [b] => [b * 256]
  | b0 :: b1 :: rest => (b0 * 256 + b1) :: to_registers rest

/-- Big-endian fixed-width byte serialization of a nonnegative integer: the
byte list produced by `struct.pack` for an in-range value (`n` bytes, most
significant first). -/
def pack_be : Nat → Nat → List Nat
  | 0, _ => []
  | n + 1, v => pack_be n (v / 256) ++ [v % 256]

/-- Encodes a uint16 into 1 register (`encode_uint16` in
`simulator/simulator.py`): `int(value) & 0xFFFF`. -/
def encode_uint16 (value : Int) : List Nat :=
  [(value % 65536).toNat]

/-- Encodes an int16 into 1 register (`encode_int16` in
`simulator/simulator.py`): `int(value) & 0xFFFF`. -/
def encode_int16 (value : Int) : List Nat :=
  [(value % 65536).toNat]

/-- Encodes a uint32 into 2 registers, big endian (`encode_uint32` in
`simulator/simulator.py`); `struct.pack` raises for an out-of-range value,
modelled as `none`. -/
def encode_uint32 (value : Nat) : Option (List Nat) :=
  if value < 2 ^ 32 then some (to_registers (pack_be 4 value)) else none

/-- Encodes a uint64 into 4 registers, big endian (`encode_uint64` in
`simulator/simulator.py`); `struct.pack` raises for an out-of-range value,
modelled as `none`. -/
def encode_uint64 (value : Nat) : Option (List Nat) :=
  if value < 2 ^ 64 then some (to_registers (pack_be 8 value)) else none

/-- UTF-8 encoding of a single code point as a byte list (the encoding used by
Python `str.encode` for each character). -/
def utf8EncodeChar (c : Nat) : List Nat :=
  if c < 0x80 then [c]
  else if c < 0x800 then [0xC0 + c / 64, 0x80 + c % 64]
  else if c < 0x10000 then [0xE0 + c / 4096, 0x80 + c / 64 % 64, 0x80 + c % 64]
  else [0xF0 + c / 262144, 0x80 + c / 4096 % 64, 0x80 + c / 64 % 64, 0x80 + c % 64]

/-- Encodes a string into registers, null-padded (`encode_string` in
`simulator/simulator.py`): Python truncates to `length` characters
(`s[:length]`), encodes them as UTF-8 bytes, then pads with zero bytes up to
`length` bytes (no padding when the encoding is already at least `length`
bytes, since `b"\x00" * negative` is empty). -/
def encode_string (s : String) (length : Nat) : List Nat :=
  let bytes := (s.data.take length).flatMap (fun c => utf8EncodeChar c.toNat)
  to_registers (bytes ++ List.replicate (length - bytes.length) 0)

/-!  Byte-level decoding helpers (smoke_test_ha.py and test_simulator.py)  -/

/-- Converts a list of 16-bit registers to bytes, big endian (`to_bytes` in
`simulator/test_simulator.py`, also inlined in the decoders of
`simulator/smoke_test_ha.py`); Python `r.to_bytes(2, "big")` raises
`OverflowError` for a value outside 16 bits, modelled as `none`. -/
def to_bytes : List Nat → Option (List Nat)
  | [] => some []
  | r :: rest =>
    if r < 65536 then (to_bytes rest).map (fun bs => r / 256 :: r % 256 :: bs) else none

/-- Big-endian interpretation of a byte list as a nonnegative integer (the
integer produced by `struct.unpack` on those bytes). -/
def unpack_be (bs : List Nat) : Nat :=
  bs.foldl (fun acc b => acc * 256 + b) 0

/-- Decode UINT16 from 1 register at offset (`decode_uint16` in
`simulator/smoke_test_ha.py`); Python raises `IndexError` past the end,
modelled as `none`. -/
def decode_uint16 (registers : List Nat) (offset : Nat) : Option Nat :=
  registers[offset]?

/-- Decode INT16 from 1 register at offset (`decode_int16` in
`simulator/smoke_test_ha.py`): a register word `≥ 0x8000` is reinterpreted as
negative via two's complement. -/
def decode_int16 (registers : List Nat) (offset : Nat) : Option Int :=
  (registers[offset]?).map
    (fun (val : Nat) => if val < 0x8000 then (val : Int) else (val : Int) - 0x10000)

/-- Decode UINT32 from 2 registers at offset (`decode_uint32` in
`simulator/smoke_test_ha.py`): `(regs[0] << 16) | regs[1]` on the slice
`registers[offset : offset + 2]`; a short slice raises `IndexError`,
modelled as `none`. -/
def decode_uint32 (registers : List Nat) (offset : Nat) : Option Nat :=
  match (registers.drop offset).take 2 with
  | [r0, r1] => some ((r0 <<< 16) ||| r1)
  | _ => none

/-- Decode UINT64 from 4 registers at offset (`decode_uint64` in
`simulator/smoke_test_ha.py`): bytes of the slice `registers[offset : offset + 4]`
unpacked as `">Q"`; `struct.unpack` requires exactly 8 bytes, modelled by the
length check. -/
def decode_uint64 (registers : List Nat) (offset : Nat) : Option Nat :=
  match to_bytes ((registers.drop offset).take 4) with
  | some bs => if bs.length = 8 then some (unpack_be bs) else none
  | none => none

/-- CPython UTF-8 decoder on a byte list, fuel-indexed (the fuel is set to the
list length by `pyDecodeUtf8`, and at least one byte is consumed per step, so
the fuel never runs out).  With `strict = true` an invalid sequence is a
decode error (Python `bytes.decode("utf-8")`); with `strict = false` the
`errors="ignore"` handler drops the maximal invalid subpart and continues
(skipping the start byte together with the valid continuation bytes seen so
far), as CPython does.  Overlong encodings, surrogates (`0xED 0xA0`..) and
code points above `0x10FFFF` are invalid, via the restricted ranges of the
first continuation byte. -/
def utf8DecodeAux (strict : Bool) : Nat → List Nat → Except Unit (List Nat)
  | _, [] => .ok []
  | 0, _ :: _ => .ok []
  | fuel + 1, b :: bs =>
    if b < 0x80 then
      (utf8DecodeAux strict fuel bs).map (fun cs => b :: cs)
    else if b < 0xC2 then
      if strict then .error () else utf8DecodeAux strict fuel bs
    else if b < 0xE0 then
      match bs with
      | b1 :: bs1 =>
        if 0x80 ≤ b1 ∧ b1 < 0xC0 then
          (utf8DecodeAux strict fuel bs1).map (fun cs => ((b - 0xC0) * 64 + (b1 - 0x80)) :: cs)
        else if strict then .error () else utf8DecodeAux strict fuel bs
      | [] => if strict then .error () else .ok []
    else if b < 0xF0 then
      match bs with
      | b1 :: bs1 =>
        if (if b = 0xE0 then 0xA0 else 0x80) ≤ b1 ∧ b1 < (if b = 0xED then 0xA0 else 0xC0) then
          match bs1 with
          | b2 :: bs2 =>
            if 0x80 ≤ b2 ∧ b2 < 0xC0 then
              (utf8DecodeAux strict fuel bs2).map
                (fun cs => ((b - 0xE0) * 4096 + (b1 - 0x80) * 64 + (b2 - 0x80)) :: cs)
            else if strict then .error () else utf8DecodeAux strict fuel bs1
          | [] => if strict then .error () else .ok []
        else if strict then .error () else utf8DecodeAux strict fuel bs
      | [] => if strict then .error () else .ok []
    else if b < 0xF5 then
      match bs with
      | b1 :: bs1 =>
        if (if b = 0xF0 then 0x90 else 0x80) ≤ b1 ∧ b1 < (if b = 0xF4 then 0x90 else 0xC0) then
          match bs1 with
          | b2 :: bs2 =>
            if 0x80 ≤ b2 ∧ b2 < 0xC0 then
              match bs2 with
              | b3 :: bs3 =>
                if 0x80 ≤ b3 ∧ b3 < 0xC0 then
                  (utf8DecodeAux strict fuel bs3).map
                    (fun cs =>
                      ((b - 0xF0) * 262144 + (b1 - 0x80) * 4096 +
                        (b2 - 0x80) * 64 + (b3 - 0x80)) :: cs)
                else if strict then .error () else utf8DecodeAux strict fuel bs2
              | [] => if strict then .error () else .ok []
            else if strict then .error () else utf8DecodeAux strict fuel bs1
          | [] => if strict then .error () else .ok []
        else if strict then .error () else utf8DecodeAux strict fuel bs
      | [] => if strict then .error () else .ok []
    else
      if strict then .error () else utf8DecodeAux strict fuel bs

/-- Python `bytes.decode("utf-8", ...)` on a byte list: `strict = false` is
`errors="ignore"`. -/
def pyDecodeUtf8 (strict : Bool) (bs : List Nat) : Except Unit (List Nat) :=
  utf8DecodeAux strict bs.length bs

/-- Python `str.strip("\x00")`: removes NUL characters from both ends. -/
def stripNul (cs : List Nat) : List Nat :=
  ((cs.dropWhile (fun c => c == 0)).reverse.dropWhile (fun c => c == 0)).reverse

/-- Decode STRING from registers at offset (`decode_string` in
`simulator/smoke_test_ha.py`, replicating the Home Assistant integration):
bytes of the slice `registers[offset : offset + count]` decoded as UTF-8 with
`errors="ignore"`, then stripped of NUL characters.  Strings are represented
as lists of Unicode code points. -/
def decode_string (registers : List Nat) (offset count : Nat) : Option (List Nat) :=
  match to_bytes ((registers.drop offset).take count) with
  | some bs =>
    match pyDecodeUtf8 false bs with
    | .ok cs => some (stripNul cs)
    | .error _ => none
  | none => none

/-- Code points of a string, for relating `decode_string` results to string
literals. -/
def strCodes (s : String) : List Nat :=
  s.data.map (fun c => c.toNat)

/-!  IEEE-754 binary32 codec (struct.pack/unpack ">f")  -/

/-- Floor of the base-2 logarithm of `m ≥ 1`, fuel-indexed (any fuel at least
`log2 m` is enough; callers pass `m` itself). -/
def log2Fuel : Nat → Nat → Nat
  | 0, _ => 0
  | fuel + 1, m => if m ≤ 1 then 0 else log2Fuel fuel (m / 2) + 1

/-- Least `k` with `d ≤ n * 2 ^ k`, fuel-indexed (callers pass `d` as fuel,
which is enough for `n ≥ 1`). -/
def powGapFuel : Nat → Nat → Nat → Nat
  | 0, _, _ => 0
  | fuel + 1, n, d => if d ≤ n then 0 else powGapFuel fuel (n * 2) d + 1

/-- Floor of the base-2 logarithm of the positive rational `n / d`. -/
def ratFloorLog2 (n d : Nat) : Int :=
  if d ≤ n then (log2Fuel n (n / d) : Int)
  else -(powGapFuel d n d : Int)

/-- Round-to-nearest, ties-to-even, of the nonnegative rational `num / den`. -/
def roundHalfEvenNat (num den : Nat) : Nat :=
  let q := num / den
  let r := num % den
  if 2 * r < den then q
  else if den < 2 * r then q + 1
  else if q % 2 = 0 then q else q + 1

/-- IEEE-754 binary32 bit pattern of a rational, round-to-nearest-even: the
conversion performed by `struct.pack(">f", value)`.  A magnitude that rounds
beyond the largest finite binary32 raises `OverflowError` in Python, modelled
as `none`. -/
def float32Bits (q : ℚ) : Option Nat :=
  if q = 0 then some 0
  else
    let s : Nat := if q < 0 then 2 ^ 31 else 0
    let n := q.num.natAbs
    let d := q.den
    let e : Int := ratFloorLog2 n d
    if e < -126 then
      some (s + roundHalfEvenNat (n * 2 ^ 149) d)
    else
      let scaled : Nat × Nat :=
        if e ≤ 23 then (n * 2 ^ (23 - e).toNat, d) else (n, d * 2 ^ (e - 23).toNat)
      let m := roundHalfEvenNat scaled.1 scaled.2
      let e2 : Int := if m = 2 ^ 24 then e + 1 else e
      let m2 : Nat := if m = 2 ^ 24 then 2 ^ 23 else m
      if 127 < e2 then none
      else some (s + (e2 + 127).toNat * 2 ^ 23 + (m2 - 2 ^ 23))

/-- Encodes a float32 into 2 registers, big endian (`encode_float` in
`simulator/simulator.py`): `to_registers(struct.pack(">f", value))`. -/
def encode_float (value : ℚ) : Option (List Nat) :=
  (float32Bits value).map (fun bits => to_registers (pack_be 4 bits))

/-- Exact rational value of an IEEE-754 binary32 bit pattern (`none` for the
infinities and NaNs, which are not rational). -/
def float32ToRat (bits : Nat) : Option ℚ :=
  let sign : Int := if bits / 2 ^ 31 % 2 = 1 then -1 else 1
  let exp : Nat := bits / 2 ^ 23 % 256
  let frac : Nat := bits % 2 ^ 23
  if exp = 255 then none
  else if exp = 0 then some (mkRat (sign * (frac : Int)) (2 ^ 149))
  else some (mkRat (sign * (((2 ^ 23 + frac : Nat) * 2 ^ exp : Nat) : Int)) (2 ^ 150))

/-- Decodes a float32 from 2 registers (`decode_float` in
`simulator/test_simulator.py`): `struct.unpack(">f", to_bytes(registers))`;
`struct.unpack` requires exactly 4 bytes, modelled by the length check. -/
def decode_float (registers : List Nat) : Option ℚ :=
  match to_bytes registers with
  | some bs => if bs.length = 4 then float32ToRat (unpack_be bs) else none
  | none => none

/-!  Number entity clamp-then-write path (custom_components/alfen_modbus/number.py)

The hub's `data` dictionary is modelled as an association list observed only
through lookup; Python dictionary assignment is modelled by shadowing.  Numeric
values carried by the dictionary are exact rationals: the clamp path only
compares and stores them, so no floating-point rounding is involved. -/

/-- Dictionary lookup (`key in data` / `data[key]`). -/
def dlookup (data : List (String × ℚ)) (key : String) : Option ℚ :=
  (data.find? (fun p => p.1 == key)).map Prod.snd

/-- Dictionary assignment `data[key] = value`, observed through `dlookup`. -/
def dinsert (data : List (String × ℚ)) (key : String) (value : ℚ) : List (String × ℚ) :=
  (key, value) :: data

/-- Body of `AlfenNumber.update_value`: when the entity's key is absent the
update is skipped (`none`); otherwise the entity's slider maximum
(`_attr_native_max_value`) is refreshed from `actualMaxCurrent` when present,
else from `MAX_CURRENT_S<socket>` when present, else kept at its current value
`curMax`, and the stored value is encoded and written to the register
unchanged.  The result is `(new slider maximum, transmitted value)`. -/
def update_value (data : List (String × ℚ)) (key : String) (socket : Nat) (curMax : ℚ) :
    Option (ℚ × ℚ) :=
  match dlookup data key with
  | none => none
  | some value =>
    let newMax :=
      match dlookup data "actualMaxCurrent" with
      | some m => m
      | none =>
        match dlookup data ("MAX_CURRENT_S" ++ toString socket) with
        | some m => m
        | none => curMax
    some (newMax, value)

/-- Body of `AlfenNumber.async_set_native_value`: clamp the requested value to
`actualMaxCurrent` when that key is present (logging a warning exactly when
the value exceeds it), store the result in the hub data under the entity's
key, then run `update_value`.  Returns
`(new hub data, update_value result, warning logged)`. -/
def async_set_native_value (data : List (String × ℚ)) (key : String) (socket : Nat)
    (curMax value : ℚ) : List (String × ℚ) × Option (ℚ × ℚ) × Bool :=
  let clamped : ℚ × Bool :=
    match dlookup data "actualMaxCurrent" with
    | some maxAllowed => if maxAllowed < value then (maxAllowed, true) else (value, false)
    | none => (value, false)
  let data2 := dinsert data key clamped.1
  (data2, update_value data2 key socket curMax, clamped.2)

/-!  Helper lemmas: register store  -/

/-- A block write within bounds preserves the store length. -/
lemma length_blockSet_of_le (block vs : List Nat) (a : Nat)
    (h : a + vs.length ≤ block.length) :
    (blockSet block a vs).length = block.length := by
  simp only [blockSet, List.length_append, List.length_take, List.length_drop]
  omega

/-- Elementwise description of a block write within bounds. -/
lemma getElem?_blockSet (block vs : List Nat) (a j : Nat)
    (h : a + vs.length ≤ block.length) :
    (blockSet block a vs)[j]? =
      if a ≤ j ∧ j < a + vs.length then vs[j - a]? else block[j]? := by
  have hta : (block.take a).length = a := by
    rw [List.length_take]
    omega
  rw [blockSet, List.append_assoc, List.getElem?_append, hta]
  by_cases h1 : j < a
  · rw [if_pos h1, if_neg (by omega), List.getElem?_take, if_pos h1]
  · rw [if_neg h1, List.getElem?_append]
    by_cases h2 : j - a < vs.length
    · rw [if_pos h2, if_pos (by omega)]
    · rw [if_neg h2, if_neg (by omega), List.getElem?_drop]
      congr 1
      omega

/-- Reading back exactly the registers just written through the dispatcher
returns the written values. -/
lemma getValues_setValues_eq (block : List Nat) (a : Nat) (vs : List Nat)
    (h : a + 1 + vs.length ≤ block.length) :
    getValues (setValues block a vs) a vs.length = vs := by
  apply List.ext_getElem?
  intro i
  rw [getValues, blockGet, List.getElem?_take]
  by_cases hi : i < vs.length
  · rw [if_pos hi, List.getElem?_drop, setValues, getElem?_blockSet _ _ _ _ (by omega),
      if_pos (by omega)]
    congr 1
    omega
  · rw [if_neg hi]
    exact (List.getElem?_eq_none (by omega)).symm

/-- A dispatcher read of a range disjoint from a dispatcher write is
unaffected by the write. -/
lemma getValues_setValues_disjoint (block vs : List Nat) (a b c : Nat)
    (h : a + 1 + vs.length ≤ block.length)
    (hdisj : a + 1 + vs.length ≤ b + 1 ∨ b + 1 + c ≤ a + 1) :
    getValues (setValues block a vs) b c = getValues block b c := by
  apply List.ext_getElem?
  intro i
  rw [getValues, getValues, blockGet, blockGet, List.getElem?_take, List.getElem?_take]
  by_cases hi : i < c
  · rw [if_pos hi, if_pos hi, List.getElem?_drop, List.getElem?_drop, setValues,
      getElem?_blockSet _ _ _ _ (by omega), if_neg (by omega)]
  · rw [if_neg hi, if_neg hi]

/-- Length of a dispatcher read. -/
lemma getValues_length (block : List Nat) (a c : Nat) :
    (getValues block a c).length = min c (block.length - (a + 1)) := by
  simp [getValues, blockGet, List.length_take, List.length_drop]

/-- One mirror step on a store holding the payload `[w0, w1]` at
client-visible 1210 copies it to client-visible 1206, keeps 1210 intact and
preserves the store length. -/
lemma update_simulation_step_getValues (block : List Nat) (w0 w1 : Nat)
    (hlen : block.length = 2000)
    (hv : getValues block 1210 2 = [w0, w1]) :
    getValues (update_simulation_step block) 1206 2 = [w0, w1] ∧
    getValues (update_simulation_step block) 1210 2 = [w0, w1] ∧
    (update_simulation_step block).length = 2000 := by
  have hstep : update_simulation_step block = setValues block 1206 [w0, w1] := by
    simp [update_simulation_step, hv]
  rw [hstep]
  refine ⟨?_, ?_, ?_⟩
  · have h := getValues_setValues_eq block 1206 [w0, w1] (by simp; omega)
    simpa using h
  · rw [getValues_setValues_disjoint block [w0, w1] 1206 1210 2 (by simp; omega)
      (by simp)]
    exact hv
  · rw [setValues, length_blockSet_of_le]
    · exact hlen
    · simp
      omega

/-- On the socket units the server tick acts as the mirror step on that
unit's store. -/
lemma serverTick_iterate (ctx : Nat → List Nat) (unit : Nat)
    (hunit : unit = 1 ∨ unit = 2) :
    ∀ k, (serverTick^[k] ctx) unit = update_simulation_step^[k] (ctx unit) := by
  intro k
  induction k generalizing ctx with
  | zero => rfl
  | succ k ih =>
    rw [Function.iterate_succ_apply, Function.iterate_succ_apply, ih (serverTick ctx)]
    congr 1
    rw [serverTick]
    exact if_pos hunit

/-!  Claim theorems: register store and mirror loop  -/

/-- C1: writing any list of 16-bit words at a client-visible register address
and reading the same count back at that address returns exactly the written
words, both through the dispatcher pair `setValues`/`getValues` and through a
`reg`-addressed block write followed by a dispatcher read: the +1 storage
offset is applied exactly once, symmetrically, on both paths. -/
theorem addressing_symmetry (block : List Nat) (address : Nat) (vs : List Nat)
    (h : address + 1 + vs.length ≤ block.length) :
    getValues (setValues block address vs) address vs.length = vs ∧
    getValues (blockSet block (reg address) vs) address vs.length = vs :=
  ⟨getValues_setValues_eq block address vs h, getValues_setValues_eq block address vs h⟩

/-- Witness for C1 at a concrete store and payload. -/
theorem addressing_symmetry_witness :
    1210 + 1 + 2 ≤ (List.replicate 2000 0).length ∧
      getValues (setValues (List.replicate 2000 0) 1210 [17, 42]) 1210 2 = [17, 42] := by
  refine ⟨by rw [List.length_replicate]; omega, ?_⟩
  exact (addressing_symmetry (List.replicate 2000 0) 1210 [17, 42]
    (by rw [List.length_replicate]; simp)).1

/-- C10: one mirror step modifies at most the two storage words backing the
client-visible addresses 1206 and 1207 (storage indices 1207 and 1208); every
other register of the socket store is unchanged, and the product store
(unit 200) is untouched by the server tick. -/
theorem mirror_step_frame (block : List Nat) (ctx : Nat → List Nat) (j : Nat)
    (h1 : j ≠ 1207) (h2 : j ≠ 1208) :
    (update_simulation_step block)[j]? = block[j]? ∧ serverTick ctx 200 = ctx 200 := by
  constructor
  · simp only [update_simulation_step]
    by_cases hc : (getValues block 1210 2).length = 2
    · rw [if_pos hc]
      have hlenv := getValues_length block 1210 2
      have hlen : 1213 ≤ block.length := by omega
      rw [setValues, getElem?_blockSet _ _ _ _ (by omega), if_neg (by omega)]
    · rw [if_neg hc]
  · rfl

/-- Witness for C10 at a concrete store, index and context. -/
theorem mirror_step_frame_witness :
    (100 : Nat) ≠ 1207 ∧ (100 : Nat) ≠ 1208 ∧
      ((update_simulation_step (List.replicate 2000 3))[100]? =
        (List.replicate 2000 3)[100]? ∧
        serverTick (fun _ => [1, 2, 3]) 200 = (fun _ => [1, 2, 3]) 200) :=
  ⟨by decide, by decide,
    mirror_step_frame (List.replicate 2000 3) (fun _ => [1, 2, 3]) 100 (by decide) (by decide)⟩

/-- C2: after a two-word FLOAT32 payload is written at client-visible 1210 on
a socket unit, every number of mirror-loop ticks from one upwards leaves the
payload readable at client-visible 1206, so the value decoded at 1206 equals
the decode of the written payload, after the first tick and after every
further tick. -/
theorem mirror_loop_reflects_write (ctx : Nat → List Nat) (unit w0 w1 n : Nat)
    (hunit : unit = 1 ∨ unit = 2) (hlen : (ctx unit).length = 2000) :
    getValues
        ((serverTick^[n + 1])
          (fun u => if u = unit then setValues (ctx u) 1210 [w0, w1] else ctx u) unit)
        1206 2 = [w0, w1] ∧
      decode_float
          (getValues
            ((serverTick^[n + 1])
              (fun u => if u = unit then setValues (ctx u) 1210 [w0, w1] else ctx u) unit)
            1206 2) = decode_float [w0, w1] := by
  have hctx : (fun u => if u = unit then setValues (ctx u) 1210 [w0, w1] else ctx u) unit
      = setValues (ctx unit) 1210 [w0, w1] := by simp
  rw [serverTick_iterate _ unit hunit (n + 1)]
  rw [if_pos rfl]
  have hinv : ∀ k,
      getValues (update_simulation_step^[k] (setValues (ctx unit) 1210 [w0, w1])) 1210 2
          = [w0, w1] ∧
      (update_simulation_step^[k] (setValues (ctx unit) 1210 [w0, w1])).length = 2000 := by
    intro k
    induction k with
    | zero =>
      constructor
      · have h := getValues_setValues_eq (ctx unit) 1210 [w0, w1] (by simp; omega)
        simpa using h
      · rw [Function.iterate_zero_apply, setValues, length_blockSet_of_le]
        · exact hlen
        · simp
          omega
    | succ k ih =>
      rw [Function.iterate_succ_apply']
      have h := update_simulation_step_getValues _ w0 w1 ih.2 ih.1
      exact ⟨h.2.1, h.2.2⟩
  have hfin := update_simulation_step_getValues _ w0 w1 (hinv n).2 (hinv n).1
  rw [Function.iterate_succ_apply']
  exact ⟨hfin.1, by rw [hfin.1]⟩

/-- Witness for C2 at a concrete context, payload and tick count. -/
theorem mirror_loop_reflects_write_witness :
    ((1 : Nat) = 1 ∨ (1 : Nat) = 2) ∧ ((fun _ => List.replicate 2000 0) 1).length = 2000 ∧
      getValues
          ((serverTick^[0 + 1])
            (fun u =>
              if u = 1 then setValues ((fun _ => List.replicate 2000 0) u) 1210 [0x4368, 0x8000]
              else (fun _ => List.replicate 2000 0) u) 1)
          1206 2 = [0x4368, 0x8000] :=
  ⟨Or.inl rfl, List.length_replicate 2000 0,
    (mirror_loop_reflects_write (fun _ => List.replicate 2000 0) 1 0x4368 0x8000 0
      (Or.inl rfl) (List.length_replicate 2000 0)).1⟩

/-!  Helper lemmas: codec  -/

/-- Register count of a packed byte list. -/
lemma to_registers_length : ∀ bs : List Nat, (to_registers bs).length = (bs.length + 1) / 2
  | [] => by simp [to_registers]
  | [_] => by simp [to_registers]
  | b0 :: b1 :: rest => by
    simp only [to_registers, List.length_cons]
    rw [to_registers_length rest]
    omega

/-- Bitwise or of a left-shifted value with a small value is their sum. -/
lemma mul_pow_lor_eq_add (a : Nat) : ∀ n b, b < 2 ^ n → (a * 2 ^ n) ||| b = a * 2 ^ n + b := by
  intro n
  induction n with
  | zero =>
    intro b hb
    have hb0 : b = 0 := by omega
    subst hb0
    simp
  | succ n ih =>
    intro b hb
    have hdecomp : 2 * b.div2 + b.bodd.toNat = b := by
      have h := Nat.bit_decomp b
      cases hB : b.bodd <;> simp [Nat.bit, hB] at h <;> simp [Nat.div2_val] at h ⊢ <;> omega
    have hdiv : b.div2 < 2 ^ n := by
      rw [Nat.div2_val]
      rw [Nat.pow_succ] at hb
      omega
    have ha2 : a * 2 ^ (n + 1) = Nat.bit false (a * 2 ^ n) := by
      simp [Nat.bit, Nat.pow_succ]
      ring
    have hmul : a * (2 ^ n * 2) = a * 2 ^ n * 2 := by ring
    calc (a * 2 ^ (n + 1)) ||| b
        = Nat.bit false (a * 2 ^ n) ||| Nat.bit b.bodd b.div2 := by rw [ha2, Nat.bit_decomp]
      _ = Nat.bit (false || b.bodd) ((a * 2 ^ n) ||| b.div2) :=
          Nat.lor_bit false (a * 2 ^ n) b.bodd b.div2
      _ = Nat.bit b.bodd (a * 2 ^ n + b.div2) := by rw [Bool.false_or, ih b.div2 hdiv]
      _ = a * 2 ^ (n + 1) + b := by
          cases hB : b.bodd <;> simp [Nat.bit, hB] at hdecomp ⊢ <;> rw [Nat.pow_succ] <;> omega

/-- Every byte emitted by `pack_be` is below 256. -/
lemma pack_be_lt : ∀ (n v : Nat), ∀ b ∈ pack_be n v, b < 256 := by
  intro n
  induction n with
  | zero => intro v b hb; simp [pack_be] at hb
  | succ n ih =>
    intro v b hb
    simp only [pack_be, List.mem_append, List.mem_singleton] at hb
    rcases hb with hb | hb
    · exact ih (v / 256) b hb
    · omega

/-- `pack_be` emits exactly the requested number of bytes. -/
lemma pack_be_length : ∀ (n v : Nat), (pack_be n v).length = n := by
  intro n
  induction n with
  | zero => intro v; rfl
  | succ n ih =>
    intro v
    simp only [pack_be, List.length_append, List.length_cons, List.length_nil, ih]

/-- Unpacking the registers of an even-length byte list recovers the bytes. -/
lemma to_bytes_to_registers : ∀ bs : List Nat, (∀ b ∈ bs, b < 256) → bs.length % 2 = 0 →
    to_bytes (to_registers bs) = some bs
  | [] => by intro _ _; rfl
  | [b] => by
    intro _ hl
    simp at hl
  | b0 :: b1 :: rest => by
    intro h hl
    have h0 : b0 < 256 := h b0 (by simp)
    have h1 : b1 < 256 := h b1 (by simp)
    simp only [to_registers, to_bytes]
    rw [if_pos (by omega : b0 * 256 + b1 < 65536)]
    rw [to_bytes_to_registers rest (fun b hb => h b (by simp [hb]))
      (by simp only [List.length_cons] at hl; omega)]
    have e1 : (b0 * 256 + b1) / 256 = b0 := by omega
    have e2 : (b0 * 256 + b1) % 256 = b1 := by omega
    simp [e1, e2]

/-- Big-endian value of a byte list extended by one byte. -/
lemma unpack_be_append (xs : List Nat) (b : Nat) :
    unpack_be (xs ++ [b]) = unpack_be xs * 256 + b := by
  simp [unpack_be, List.foldl_append]

/-- Unpacking a packed in-range value recovers the value. -/
lemma unpack_pack : ∀ n v, v < 256 ^ n → unpack_be (pack_be n v) = v := by
  intro n
  induction n with
  | zero =>
    intro v hv
    simp only [pack_be, unpack_be, List.foldl_nil]
    omega
  | succ n ih =>
    intro v hv
    simp only [pack_be, unpack_be_append]
    rw [ih (v / 256) (by rw [Nat.pow_succ] at hv; omega)]
    omega

/-!  Claim theorems: integer codec  -/

/-- C5: for each integer register type the decode of the encode is the
identity on the representable range: UINT16 and INT16 occupy one register,
UINT32 two and UINT64 four, big endian, and INT16 decode reinterprets a
register word at or above 0x8000 as negative via two's complement. -/
theorem integer_codec_roundtrip (a : Nat) (b : Int) (c d : Nat)
    (ha : a < 2 ^ 16) (hb1 : -(2 ^ 15) ≤ b) (hb2 : b < 2 ^ 15)
    (hc : c < 2 ^ 32) (hd : d < 2 ^ 64) :
    decode_uint16 (encode_uint16 (a : Int)) 0 = some a ∧
    decode_int16 (encode_int16 b) 0 = some b ∧
    (encode_uint32 c).bind (fun regs => decode_uint32 regs 0) = some c ∧
    (encode_uint64 d).bind (fun regs => decode_uint64 regs 0) = some d := by
  refine ⟨?_, ?_, ?_, ?_⟩
  · simp only [encode_uint16, decode_uint16, List.getElem?_cons_zero]
    rw [Option.some_inj]
    omega
  · simp only [encode_int16, decode_int16, List.getElem?_cons_zero, Option.map_some']
    rw [Option.some_inj]
    split <;> omega
  · rw [encode_uint32, if_pos hc]
    show decode_uint32 (to_registers (pack_be 4 c)) 0 = some c
    simp only [pack_be, List.nil_append, List.cons_append, List.append_nil]
    simp only [to_registers, decode_uint32, List.drop_zero, List.take_succ_cons,
      List.take_zero, List.take_nil]
    rw [Nat.shiftLeft_eq, mul_pow_lor_eq_add _ 16 _ (by omega)]
    rw [Option.some_inj]
    omega
  · rw [encode_uint64, if_pos hd]
    show decode_uint64 (to_registers (pack_be 8 d)) 0 = some d
    unfold decode_uint64
    rw [List.drop_zero,
      List.take_of_length_le (by rw [to_registers_length, pack_be_length]),
      to_bytes_to_registers (pack_be 8 d) (pack_be_lt 8 d) (by rw [pack_be_length])]
    show (if (pack_be 8 d).length = 8 then some (unpack_be (pack_be 8 d)) else none) = some d
    rw [pack_be_length, if_pos rfl, unpack_pack 8 d (by omega)]

/-- Witness for C5 at concrete representative values. -/
theorem integer_codec_roundtrip_witness :
    ((7 : Nat) < 2 ^ 16 ∧ -(2 ^ 15) ≤ (-5 : Int) ∧ (-5 : Int) < 2 ^ 15 ∧
        (4000000000 : Nat) < 2 ^ 32 ∧ (12345678901234 : Nat) < 2 ^ 64) ∧
      (decode_uint16 (encode_uint16 ((7 : Nat) : Int)) 0 = some 7 ∧
        decode_int16 (encode_int16 (-5)) 0 = some (-5) ∧
        (encode_uint32 4000000000).bind (fun regs => decode_uint32 regs 0) =
          some 4000000000 ∧
        (encode_uint64 12345678901234).bind (fun regs => decode_uint64 regs 0) =
          some 12345678901234) :=
  ⟨by norm_num,
    integer_codec_roundtrip 7 (-5) 4000000000 12345678901234
      (by norm_num) (by norm_num) (by norm_num) (by norm_num) (by norm_num)⟩

/-!  Claim theorems: string codec  -/

/-- C7 counterexample: for the two-character string of U+00E9 (two UTF-8
bytes per character) and declared byte length 2, `encode_string` emits 2
registers, not ceil(2/2) = 1: the Python-style truncation counts characters,
not bytes, so a multi-byte string overflows the declared register width. -/
theorem encode_string_width_cex :
    ¬ ((encode_string "éé" 2).length = (2 + 1) / 2) := by decide

/-- C7 (amended): whenever the truncation of the input to the declared byte
length `n` in characters encodes to at most `n` UTF-8 bytes (in particular
for every ASCII string), `encode_string` returns exactly ceil(n/2) register
words and never overflows the declared register width. -/
theorem encode_string_width (s : String) (n : Nat)
    (h : ((s.data.take n).flatMap (fun c => utf8EncodeChar c.toNat)).length ≤ n) :
    (encode_string s n).length = (n + 1) / 2 := by
  unfold encode_string
  rw [to_registers_length, List.length_append, List.length_replicate]
  omega

/-- Witness for the amended C7 at a concrete string and length. -/
theorem encode_string_width_witness :
    ((("ab" : String).data.take 4).flatMap (fun c => utf8EncodeChar c.toNat)).length ≤ 4 ∧
      (encode_string "ab" 4).length = (4 + 1) / 2 :=
  ⟨by decide, encode_string_width "ab" 4 (by decide)⟩

/-- C8: encoding the 25-character ASCII string "Alfen Eve Single Pro-line"
as a 34-byte STRING field yields exactly 17 registers, and decoding those 17
registers strips the zero-byte padding and returns exactly the original
string. -/
theorem string_roundtrip_scenario :
    (encode_string "Alfen Eve Single Pro-line" 34).length = 17 ∧
      decode_string (encode_string "Alfen Eve Single Pro-line" 34) 0 17 =
        some (strCodes "Alfen Eve Single Pro-line") := by
  constructor
  · decide
  · decide

set_option maxHeartbeats 2000000 in
/-- The `errors="ignore"` UTF-8 decoder succeeds on every byte list. -/
lemma utf8DecodeAux_ignore_ok :
    ∀ (fuel : Nat) (bs : List Nat), ∃ cs, utf8DecodeAux false fuel bs = .ok cs := by
  intro fuel
  induction fuel with
  | zero =>
    intro bs
    cases bs <;> exact ⟨_, rfl⟩
  | succ n ih =>
    intro bs
    cases bs with
    | nil => exact ⟨_, rfl⟩
    | cons b rest =>
      simp only [utf8DecodeAux]
      repeat' split
      all_goals try exact absurd (by assumption) (by decide : ¬(false = true))
      all_goals try exact ⟨_, rfl⟩
      all_goals try exact ih _
      all_goals (obtain ⟨cs, hcs⟩ := ih _; rw [hcs]; exact ⟨_, rfl⟩)

/-- Byte conversion succeeds on any list of 16-bit words. -/
lemma to_bytes_isSome : ∀ rs : List Nat, (∀ r ∈ rs, r < 65536) →
    ∃ bs, to_bytes rs = some bs
  | [] => fun _ => ⟨[], rfl⟩
  | r :: rest => fun h => by
    obtain ⟨bs, hbs⟩ := to_bytes_isSome rest (fun x hx => h x (List.mem_cons_of_mem r hx))
    simp only [to_bytes]
    rw [if_pos (h r (List.mem_cons_self r rest)), hbs]
    exact ⟨_, rfl⟩

/-- C9: STRING decode is total on register words: for every list of 16-bit
register words, whatever bytes they hold, `decode_string` returns a decoded
string, dropping undecodable byte sequences instead of failing. -/
theorem string_decode_total (registers : List Nat) (offset count : Nat)
    (h : ∀ r ∈ registers, r < 2 ^ 16) :
    (decode_string registers offset count).isSome := by
  obtain ⟨bs, hbs⟩ := to_bytes_isSome ((registers.drop offset).take count)
    (fun r hr => h r (List.drop_subset _ _ (List.take_subset _ _ hr)))
  obtain ⟨cs, hcs⟩ := utf8DecodeAux_ignore_ok bs.length bs
  simp only [decode_string, pyDecodeUtf8, hbs, hcs, Option.isSome_some]

/-- Witness for C9 on a register list containing an invalid UTF-8 byte. -/
theorem string_decode_total_witness :
    (∀ r ∈ [0x41C3, 0x2842], r < 2 ^ 16) ∧
      (decode_string [0x41C3, 0x2842] 0 2).isSome :=
  ⟨by decide, string_decode_total [0x41C3, 0x2842] 0 2 (by decide)⟩

/-!  Claim theorem: FLOAT32 scenario  -/

/-- C6: encoding FLOAT32(232.5) yields exactly the registers 0x4368, 0x8000,
and decoding those registers yields exactly 232.5 (the rational 465/2). -/
theorem float32_scenario :
    encode_float (mkRat 465 2) = some [0x4368, 0x8000] ∧
      decode_float [0x4368, 0x8000] = some (mkRat 465 2) ∧
      (mkRat 465 2 : ℚ) = 232.5 := by
  refine ⟨by decide, by decide, ?_⟩
  rw [Rat.mkRat_eq_div]
  norm_num

/-!  Claim theorems: clamp-then-write path  -/

/-- Looking up the key just assigned returns the assigned value. -/
lemma dlookup_dinsert (data : List (String × ℚ)) (key : String) (v : ℚ) :
    dlookup (dinsert data key v) key = some v := by
  rw [dlookup, dinsert, List.find?_cons_of_pos _ (by simp)]
  rfl

/-- C3: when an observed hard limit L is present under "actualMaxCurrent",
the value stored and handed to the encode-and-write step is the request
clamped at L (so it never exceeds L), and a clamp warning is logged exactly
when the request exceeds L. -/
theorem clamp_law (data : List (String × ℚ)) (key : String) (socket : Nat)
    (curMax value L : ℚ) (hL : dlookup data "actualMaxCurrent" = some L) :
    ((async_set_native_value data key socket curMax value).2.1).map Prod.snd =
        some (if L < value then L else value) ∧
      (if L < value then L else value) ≤ L ∧
      dlookup (async_set_native_value data key socket curMax value).1 key =
        some (if L < value then L else value) ∧
      ((async_set_native_value data key socket curMax value).2.2 = true ↔ L < value) := by
  by_cases hv : L < value
  · refine ⟨?_, ?_, ?_, ?_⟩
    · simp [async_set_native_value, update_value, hL, hv, dlookup_dinsert]
    · simp [hv]
    · simp [async_set_native_value, hL, hv, dlookup_dinsert]
    · simp [async_set_native_value, hL, hv]
  · refine ⟨?_, ?_, ?_, ?_⟩
    · simp [async_set_native_value, update_value, hL, hv, dlookup_dinsert]
    · simp only [if_neg hv]
      exact le_of_not_lt hv
    · simp [async_set_native_value, hL, hv, dlookup_dinsert]
    · simp [async_set_native_value, hL, hv]

/-- Witness for C3 at the spec scenario: request 40 A with observed limit
32 A. -/
theorem clamp_law_witness :
    dlookup [("actualMaxCurrent", (32 : ℚ))] "actualMaxCurrent" = some 32 ∧
      (((async_set_native_value [("actualMaxCurrent", (32 : ℚ))]
            "slaveMaxCurrent1" 1 32 40).2.1).map Prod.snd =
          some (if (32 : ℚ) < 40 then (32 : ℚ) else 40) ∧
        (if (32 : ℚ) < 40 then (32 : ℚ) else 40) ≤ 32 ∧
        dlookup (async_set_native_value [("actualMaxCurrent", (32 : ℚ))]
            "slaveMaxCurrent1" 1 32 40).1 "slaveMaxCurrent1" =
          some (if (32 : ℚ) < 40 then (32 : ℚ) else 40) ∧
        ((async_set_native_value [("actualMaxCurrent", (32 : ℚ))]
            "slaveMaxCurrent1" 1 32 40).2.2 = true ↔ (32 : ℚ) < 40)) :=
  ⟨by decide, clamp_law [("actualMaxCurrent", (32 : ℚ))] "slaveMaxCurrent1" 1 32 40 32
    (by decide)⟩

/-- C4 counterexample: with no "actualMaxCurrent" key present and a static
maximum of 32, a request of 40 is transmitted as 40, exceeding the static
maximum: the write path does not clamp to the static maximum. -/
theorem clamp_fallback_cex :
    (async_set_native_value [("MAX_CURRENT_S1", (16 : ℚ))]
        "slaveMaxCurrent1" 1 32 40).2.1 = some (16, 40) ∧
      ¬ ((40 : ℚ) ≤ 32) := by
  constructor
  · decide
  · decide

/-- C4 (amended): when no observed hard ceiling is present under
"actualMaxCurrent", the write path performs no clamping at all: the requested
value is stored and transmitted unchanged and no clamp warning is logged (the
fallback field only refreshes the entity's advertised maximum, it is not
applied to the transmitted value). -/
theorem clamp_fallback_none (data : List (String × ℚ)) (key : String) (socket : Nat)
    (curMax value : ℚ) (h : dlookup data "actualMaxCurrent" = none) :
    ((async_set_native_value data key socket curMax value).2.1).map Prod.snd = some value ∧
      (async_set_native_value data key socket curMax value).2.2 = false := by
  constructor <;> simp [async_set_native_value, update_value, h, dlookup_dinsert]

/-- Witness for the amended C4 at a concrete hub state. -/
theorem clamp_fallback_none_witness :
    dlookup [("MAX_CURRENT_S1", (16 : ℚ))] "actualMaxCurrent" = none ∧
      (((async_set_native_value [("MAX_CURRENT_S1", (16 : ℚ))]
            "slaveMaxCurrent1" 1 32 40).2.1).map Prod.snd = some 40 ∧
        (async_set_native_value [("MAX_CURRENT_S1", (16 : ℚ))]
            "slaveMaxCurrent1" 1 32 40).2.2 = false) :=
  ⟨by decide, clamp_fallback_none [("MAX_CURRENT_S1", (16 : ℚ))] "slaveMaxCurrent1" 1 32 40
    (by decide)⟩
